import Mathlib

/-!
Verification of the HRV metric engine and batch aggregator from `src/hrv.py`.

The engine (`calculate_HRV_metrics`) receives the parsed beat
records of one subject (a timestamp and an optional one-character annotation per beat,
missing CSV cells being `none`), builds the shifted interval columns of the
pandas pipeline, filters the normal-to-normal pairs, and computes the seven
output fields with numpy half-to-even rounding.  All arithmetic is modelled
over `ℚ`; the broad `except` handler of the Python code is modelled by
mapping any internal exception (`PyErr`) to `none`.
-/

/-- One parsed beat record: a timestamp (the `time` CSV column) and the
beat-type annotation (the `type` CSV column; `none` models a missing cell,
which pandas reads as NaN). -/
structure Beat where
  time : ℚ
  type : Option Char
deriving DecidableEq

/-- A numpy floating value that is either NaN or an exact number. -/
inductive PFloat where
  | nan : PFloat
  | num : ℚ → PFloat
deriving DecidableEq

/-- The result dictionary built by `calculate_HRV_metrics`: exactly the eight
keys `filename`, `n`, `mean_nn`, `mean_bpm`, `sdnn`, `rmssd`, `pnn20`,
`pnn50`, the six metric fields holding `none` on the `n < 500` branch. -/
structure MetricsRecord where
  filename : String
  n : ℕ
  mean_nn : Option ℤ
  mean_bpm : Option ℚ
  sdnn : Option PFloat
  rmssd : Option PFloat
  pnn20 : Option ℚ
  pnn50 : Option ℚ
deriving DecidableEq

/-- The Python exceptions that the engine can raise internally: `int(...)`
applied to a NaN mean (empty NN set) raises `ValueError`, and `1000/mean_nn`
with a zero rounded mean raises `ZeroDivisionError`.  Both are swallowed by
the broad `except` handler. -/
inductive PyErr where
  | valueError : PyErr
  | zeroDivisionError : PyErr
deriving DecidableEq

/-- One row of the derived dataframe: the columns `rr`, `rr_type`, `diff` and
`rr_next_type` built by the shift operations (lines 83-104 of the source);
`none` models NaN entries produced by `shift(-1)` at the end of the frame. -/
structure Row where
  rr : Option ℚ
  rr_type : Option String
  diff : Option ℚ
  rr_next_type : Option String
deriving DecidableEq

/-- The `rr_type` column entry for two consecutive beats: the string
concatenation `type + type_next`; in pandas a NaN operand makes the result
NaN, modelled by `none`. -/
def pairType (a b : Beat) : Option String :=
  match a.type, b.type with
  | some x, some y => some (String.mk [x, y])
  | _, _ => none

/-- The derived dataframe of the pipeline (lines 83-104): row `i` holds
`rr = time[i+1] - time[i]`, `rr_type = type[i] + type[i+1]`,
`diff = rr[i] - rr[i+1]` and `rr_next_type = rr_type[i+1]`, each `none`
where the lookahead runs off the end of the frame. -/
def mkRows : List Beat → List Row
  | b0 :: b1 :: b2 :: rest =>
    { rr := some (b1.time - b0.time)
      rr_type := pairType b0 b1
      diff := some ((b1.time - b0.time) - (b2.time - b1.time))
      rr_next_type := pairType b1 b2 } :: mkRows (b1 :: b2 :: rest)
  | [b0, b1] =>
    [{ rr := some (b1.time - b0.time)
       rr_type := pairType b0 b1
       diff := none
       rr_next_type := none }]
  | [_] => [{ rr := none, rr_type := none, diff := none, rr_next_type := none }]
  | [] => []

/-- Line 107: the dataframe filtered to rows whose `rr_type` equals "NN". -/
def nnRows (beats : List Beat) : List Row :=
  (mkRows beats).filter (fun r => r.rr_type = some "NN")

/-- Line 110: `n`, the number of retained NN rows. -/
def nnCount (beats : List Beat) : ℕ :=
  (nnRows beats).length

/-- The non-NaN `rr` values of the retained NN rows (the series over which
pandas `mean` and `std` aggregate, skipping NaN). -/
def nnRR (beats : List Beat) : List ℚ :=
  (nnRows beats).filterMap (fun r => r.rr)

/-- The raw (unrounded) mean of the `rr` series over the NN rows. -/
def meanRR (beats : List Beat) : ℚ :=
  (nnRR beats).sum / ((nnRR beats).length : ℚ)

/-- Line 118: the NN rows whose following pair is also NN. -/
def sRows (beats : List Beat) : List Row :=
  (nnRows beats).filter (fun r => r.rr_next_type = some "NN")

/-- The non-NaN successive differences over the sequential-NN rows (the
series aggregated by RMSSD and the pNN counts after `dropna`). -/
def sDiffs (beats : List Beat) : List ℚ :=
  (sRows beats).filterMap (fun r => r.diff)

/-- Round half to even to an integer, the behaviour of
`int(np.round(x, decimals=0))`. -/
def roundHalfEven (q : ℚ) : ℤ :=
  if q - ⌊q⌋ < 1/2 then ⌊q⌋
  else if 1/2 < q - ⌊q⌋ then ⌊q⌋ + 1
  else if ⌊q⌋ % 2 = 0 then ⌊q⌋ else ⌊q⌋ + 1

/-- Round half to even to one decimal place, the behaviour of
`np.round(x, decimals=1)`. -/
def roundTo1 (q : ℚ) : ℚ :=
  (roundHalfEven (10 * q) : ℚ) / 10

/-- The integer nearest to the square root of a nonnegative rational,
halves rounded to even. -/
def sqrtNearest (s : ℚ) : ℤ :=
  let a : ℕ := Nat.sqrt ⌊s⌋.toNat
  if 4 * s < ((2 * a + 1 : ℕ) : ℚ) ^ 2 then (a : ℤ)
  else if ((2 * a + 1 : ℕ) : ℚ) ^ 2 < 4 * s then (a : ℤ) + 1
  else if (a : ℤ) % 2 = 0 then (a : ℤ) else (a : ℤ) + 1

/-- `np.round(np.sqrt(q), decimals=1)` over exact rationals. -/
def sqrtRound1 (q : ℚ) : ℚ :=
  (sqrtNearest (100 * q) : ℚ) / 10

/-- Line 113: `mean_nn`, the integer half-even rounding of the mean of the
`rr` series over the NN rows. -/
def mean_nnVal (beats : List Beat) : ℤ :=
  roundHalfEven (meanRR beats)

/-- Line 115: `sdnn`, the Bessel-corrected (divisor n - 1) standard
deviation of the `rr` series over the NN rows, rounded to one decimal; it
is NaN when only one value is present. -/
def sdnnVal (beats : List Beat) : PFloat :=
  if (nnRR beats).length = 1 then PFloat.nan
  else PFloat.num (sqrtRound1
    (((nnRR beats).map (fun x => (x - meanRR beats) ^ 2)).sum
      / (((nnRR beats).length : ℚ) - 1)))

/-- Line 119: `rmssd = np.round(np.sqrt(np.mean(diff_squared.dropna())), 1)`;
the mean of an empty series is NaN. -/
def rmssdVal (beats : List Beat) : PFloat :=
  if (sDiffs beats).length = 0 then PFloat.nan
  else PFloat.num (sqrtRound1
    (((sDiffs beats).map (fun d => d ^ 2)).sum / ((sDiffs beats).length : ℚ)))

/-- Lines 120-121: `np.round(100 * np.sum(np.abs(diff) > thr) / n, 1)`, the
proportion of sequential-NN differences exceeding the threshold, with the
full NN count `n` as denominator. -/
def pnnVal (thr : ℚ) (beats : List Beat) : ℚ :=
  roundTo1 (100 * (((sDiffs beats).countP (fun d => thr < |d|)) : ℚ)
    / (nnCount beats : ℚ))

/-- The body of `calculate_HRV_metrics` inside the `try` block, on an
already-parsed beat sequence: the computations of lines 83-144 with the two
arithmetic exceptions made explicit.  `int(np.round(...))` raises
`ValueError` when the NN series is empty (its mean is NaN), and
`1000/mean_nn` raises `ZeroDivisionError` when the rounded mean is zero;
otherwise the result dictionary of the `n >= 500` or `n < 500` branch is
returned. -/
def hrvCore (file_in : String) (beats : List Beat) : Except PyErr MetricsRecord :=
  if (nnRR beats).length = 0 then .error .valueError
  else if mean_nnVal beats = 0 then .error .zeroDivisionError
  else if 500 ≤ nnCount beats then
    .ok { filename := file_in
          n := nnCount beats
          mean_nn := some (mean_nnVal beats)
          mean_bpm := some (roundTo1 (1000 / (mean_nnVal beats : ℚ) * 60))
          sdnn := some (sdnnVal beats)
          rmssd := some (rmssdVal beats)
          pnn20 := some (pnnVal 20 beats)
          pnn50 := some (pnnVal 50 beats) }
  else
    .ok { filename := file_in
          n := nnCount beats
          mean_nn := none
          mean_bpm := none
          sdnn := none
          rmssd := none
          pnn20 := none
          pnn50 := none }

/-- `calculate_HRV_metrics` as seen by its caller: the broad
`except Exception` handler (lines 156-157) swallows any internal exception
and lets the function return `None`. -/
def calculate_HRV_metrics (file_in : String) (beats : List Beat) : Option MetricsRecord :=
  (hrvCore file_in beats).toOption

/-- The Python `str.endswith` test, on the character lists of the two
strings. -/
def endsWithStr (s suffix : String) : Bool :=
  suffix.data.isSuffixOf s.data

/-- The loop of `process_HRV_files` (lines 191-201): subjects are filtered
by the `.csv` suffix, the beats of each retained subject are fetched from the
source collaborator and processed, and every result, including a `None`
from a failed subject, is appended in input order. -/
def process_HRV_files (file_list_in : List String) (source : String → List Beat) :
    List (Option MetricsRecord) :=
  match file_list_in with
  | [] => []
  | f :: fs =>
    if endsWithStr f ".csv" then
      calculate_HRV_metrics f (source f) :: process_HRV_files fs source
    else
      process_HRV_files fs source

/-- Specification-level reading of the NN interval list: the interval
`time[i+1] - time[i]` for every consecutive pair of beats whose two types
are both the normal annotation. -/
def specNNIntervals : List Beat → List ℚ
  | a :: b :: rest =>
    if a.type = some 'N' ∧ b.type = some 'N' then
      (b.time - a.time) :: specNNIntervals (b :: rest)
    else
      specNNIntervals (b :: rest)
  | _ => []

/-- Specification-level reading of the successive-difference list: the value
`(time[i+1] - time[i]) - (time[i+2] - time[i+1])` for every run of three
consecutive beats that are all normal. -/
def specSuccDiffs : List Beat → List ℚ
  | a :: b :: c :: rest =>
    if a.type = some 'N' ∧ b.type = some 'N' ∧ c.type = some 'N' then
      ((b.time - a.time) - (c.time - b.time)) :: specSuccDiffs (b :: c :: rest)
    else
      specSuccDiffs (b :: c :: rest)
  | _ => []

lemma pairType_NN (a b : Beat) :
    pairType a b = some "NN" ↔ a.type = some 'N' ∧ b.type = some 'N' := by
  unfold pairType
  rcases a.type with _ | x <;> rcases b.type with _ | y <;>
    simp [String.ext_iff]

lemma specNN_cons2 (a b : Beat) (l : List Beat) :
    specNNIntervals (a :: b :: l) =
      if a.type = some 'N' ∧ b.type = some 'N' then
        (b.time - a.time) :: specNNIntervals (b :: l)
      else specNNIntervals (b :: l) := rfl

lemma specNN_one (a : Beat) : specNNIntervals [a] = [] := rfl

lemma specSD_cons3 (a b c : Beat) (l : List Beat) :
    specSuccDiffs (a :: b :: c :: l) =
      if a.type = some 'N' ∧ b.type = some 'N' ∧ c.type = some 'N' then
        ((b.time - a.time) - (c.time - b.time)) :: specSuccDiffs (b :: c :: l)
      else specSuccDiffs (b :: c :: l) := rfl

lemma specSD_two (a b : Beat) : specSuccDiffs [a, b] = [] := rfl

lemma nnRows_cons3 (a b c : Beat) (rest : List Beat) :
    nnRows (a :: b :: c :: rest) =
      (if a.type = some 'N' ∧ b.type = some 'N' then
        [{ rr := some (b.time - a.time), rr_type := pairType a b,
           diff := some ((b.time - a.time) - (c.time - b.time)),
           rr_next_type := pairType b c }]
       else []) ++ nnRows (b :: c :: rest) := by
  by_cases h : a.type = some 'N' ∧ b.type = some 'N' <;>
    simp [nnRows, mkRows, List.filter_cons, pairType_NN, h]

lemma nnRR_cons3 (a b c : Beat) (rest : List Beat) :
    nnRR (a :: b :: c :: rest) =
      (if a.type = some 'N' ∧ b.type = some 'N' then [b.time - a.time] else [])
        ++ nnRR (b :: c :: rest) := by
  by_cases h : a.type = some 'N' ∧ b.type = some 'N' <;>
    simp [nnRR, nnRows_cons3, h]

lemma nnCount_cons3 (a b c : Beat) (rest : List Beat) :
    nnCount (a :: b :: c :: rest) =
      (if a.type = some 'N' ∧ b.type = some 'N' then 1 else 0)
        + nnCount (b :: c :: rest) := by
  by_cases h : a.type = some 'N' ∧ b.type = some 'N' <;>
    simp [nnCount, nnRows_cons3, h] <;> omega

lemma sDiffs_cons3 (a b c : Beat) (rest : List Beat) :
    sDiffs (a :: b :: c :: rest) =
      (if a.type = some 'N' ∧ b.type = some 'N' ∧ c.type = some 'N' then
        [(b.time - a.time) - (c.time - b.time)]
       else []) ++ sDiffs (b :: c :: rest) := by
  by_cases ha : a.type = some 'N' <;> by_cases hb : b.type = some 'N' <;>
    by_cases hc : c.type = some 'N' <;>
    simp [sDiffs, sRows, nnRows_cons3, List.filter_cons, List.filter_append,
      pairType_NN, ha, hb, hc]

lemma nnRR_two (a b : Beat) :
    nnRR [a, b] =
      if a.type = some 'N' ∧ b.type = some 'N' then [b.time - a.time] else [] := by
  by_cases h : a.type = some 'N' ∧ b.type = some 'N' <;>
    simp [nnRR, nnRows, mkRows, List.filter_cons, pairType_NN, h]

lemma nnCount_two (a b : Beat) :
    nnCount [a, b] = if a.type = some 'N' ∧ b.type = some 'N' then 1 else 0 := by
  by_cases h : a.type = some 'N' ∧ b.type = some 'N' <;>
    simp [nnCount, nnRows, mkRows, List.filter_cons, pairType_NN, h]

lemma sDiffs_two (a b : Beat) : sDiffs [a, b] = [] := by
  by_cases h : a.type = some 'N' ∧ b.type = some 'N' <;>
    simp [sDiffs, sRows, nnRows, mkRows, List.filter_cons, pairType_NN, h]

lemma pipeline_spec (beats : List Beat) :
    nnRR beats = specNNIntervals beats ∧
    nnCount beats = (specNNIntervals beats).length ∧
    sDiffs beats = specSuccDiffs beats := by
  induction beats with
  | nil => exact ⟨rfl, rfl, rfl⟩
  | cons a l ih =>
    rcases l with _ | ⟨b, l2⟩
    · exact ⟨rfl, rfl, rfl⟩
    rcases l2 with _ | ⟨c, rest⟩
    · refine ⟨?_, ?_, ?_⟩ <;>
        by_cases h : a.type = some 'N' ∧ b.type = some 'N' <;>
        simp [nnRR_two, nnCount_two, sDiffs_two, specNN_cons2, specNN_one,
          specSD_two, h]
    · obtain ⟨ih1, ih2, ih3⟩ := ih
      refine ⟨?_, ?_, ?_⟩
      · rw [nnRR_cons3, ih1, specNN_cons2 a b (c :: rest)]
        by_cases h : a.type = some 'N' ∧ b.type = some 'N' <;> simp [h]
      · rw [nnCount_cons3, ih2, specNN_cons2 a b (c :: rest)]
        by_cases h : a.type = some 'N' ∧ b.type = some 'N' <;> simp [h] <;> omega
      · rw [sDiffs_cons3, ih3, specSD_cons3 a b c rest]
        by_cases h : a.type = some 'N' ∧ b.type = some 'N' ∧ c.type = some 'N' <;>
          simp [h]

lemma roundHalfEven_bounds (q : ℚ) :
    q - 1/2 ≤ (roundHalfEven q : ℚ) ∧ (roundHalfEven q : ℚ) ≤ q + 1/2 := by
  have hf := Int.floor_le q
  have hc := Int.lt_floor_add_one q
  unfold roundHalfEven
  split_ifs with h1 h2 h3 <;> constructor <;> push_cast <;> linarith

lemma roundHalfEven_mono {a b : ℚ} (hab : a ≤ b) :
    roundHalfEven a ≤ roundHalfEven b := by
  by_contra hlt
  push_neg at hlt
  have h1 := roundHalfEven_bounds a
  have h2 := roundHalfEven_bounds b
  have hint : (roundHalfEven b : ℚ) + 1 ≤ (roundHalfEven a : ℚ) := by
    have h3 := Int.add_one_le_iff.mpr hlt
    exact_mod_cast h3
  have hab2 : a = b := le_antisymm hab (by linarith [h1.1, h1.2, h2.1, h2.2])
  rw [hab2] at hlt
  exact lt_irrefl _ hlt

lemma roundTo1_mono {a b : ℚ} (h : a ≤ b) : roundTo1 a ≤ roundTo1 b := by
  unfold roundTo1
  have h1 := roundHalfEven_mono (by linarith : 10 * a ≤ 10 * b)
  have h2 : ((roundHalfEven (10 * a) : ℤ) : ℚ) ≤ ((roundHalfEven (10 * b) : ℤ) : ℚ) := by
    exact_mod_cast h1
  linarith

lemma roundHalfEven_intCast (n : ℤ) : roundHalfEven (n : ℚ) = n := by
  unfold roundHalfEven
  rw [Int.floor_intCast]
  norm_num

lemma roundHalfEven_zero : roundHalfEven 0 = 0 := by
  simpa using roundHalfEven_intCast 0

lemma roundTo1_zero : roundTo1 0 = 0 := by
  unfold roundTo1
  norm_num [roundHalfEven_zero]

lemma sqrtRound1_zero : sqrtRound1 0 = 0 := by
  unfold sqrtRound1 sqrtNearest
  norm_num

lemma roundHalfEven_four_fifths : roundHalfEven (4/5) = 1 := by
  have hfl : ⌊(4:ℚ)/5⌋ = 0 := by
    rw [Int.floor_eq_iff] <;> norm_num
  unfold roundHalfEven
  rw [hfl]
  norm_num

lemma roundHalfEven_two_fifths : roundHalfEven (2/5) = 0 := by
  have hfl : ⌊(2:ℚ)/5⌋ = 0 := by
    rw [Int.floor_eq_iff] <;> norm_num
  unfold roundHalfEven
  rw [hfl]
  norm_num

/-- A run of `n + 1` normal beats with constant spacing `dt` starting at
`t0`: the shape of the constant-spacing scenarios of the specification. -/
def beatsFrom (t0 dt : ℚ) : ℕ → List Beat
  | 0 => [{ time := t0, type := some 'N' }]
  | n + 1 => { time := t0, type := some 'N' } :: beatsFrom (t0 + dt) dt n

lemma beatsFrom_succ (t0 dt : ℚ) (n : ℕ) :
    beatsFrom t0 dt (n + 1) =
      { time := t0, type := some 'N' } :: beatsFrom (t0 + dt) dt n := rfl

lemma beatsFrom_head_cons (dt : ℚ) (n : ℕ) (t : ℚ) :
    ∃ rest, beatsFrom t dt n = { time := t, type := some 'N' } :: rest := by
  cases n <;> exact ⟨_, rfl⟩

lemma specNN_beatsFrom (dt : ℚ) :
    ∀ (n : ℕ) (t0 : ℚ), specNNIntervals (beatsFrom t0 dt n) = List.replicate n dt := by
  intro n
  induction n with
  | zero => intro t0; rfl
  | succ m ih =>
    intro t0
    rw [beatsFrom_succ]
    obtain ⟨rest, hrest⟩ := beatsFrom_head_cons dt m (t0 + dt)
    rw [hrest, specNN_cons2, if_pos ⟨rfl, rfl⟩, ← hrest, ih (t0 + dt)]
    simp [List.replicate_succ]

lemma specSD_beatsFrom (dt : ℚ) :
    ∀ (n : ℕ) (t0 : ℚ), specSuccDiffs (beatsFrom t0 dt n) = List.replicate (n - 1) 0 := by
  intro n
  induction n with
  | zero => intro t0; rfl
  | succ m ih =>
    intro t0
    rcases m with _ | k
    · rfl
    rw [beatsFrom_succ, beatsFrom_succ]
    obtain ⟨rest, hrest⟩ := beatsFrom_head_cons dt k (t0 + dt + dt)
    rw [hrest, specSD_cons3, if_pos ⟨rfl, rfl, rfl⟩, ← hrest, ← beatsFrom_succ, ih (t0 + dt)]
    simp [List.replicate_succ]

lemma nnRR_beatsFrom (t0 dt : ℚ) (n : ℕ) :
    nnRR (beatsFrom t0 dt n) = List.replicate n dt :=
  (pipeline_spec _).1.trans (specNN_beatsFrom dt n t0)

lemma nnCount_beatsFrom (t0 dt : ℚ) (n : ℕ) :
    nnCount (beatsFrom t0 dt n) = n := by
  rw [(pipeline_spec _).2.1, specNN_beatsFrom dt n t0, List.length_replicate]

lemma sDiffs_beatsFrom (t0 dt : ℚ) (n : ℕ) :
    sDiffs (beatsFrom t0 dt n) = List.replicate (n - 1) 0 :=
  (pipeline_spec _).2.2.trans (specSD_beatsFrom dt n t0)

lemma meanRR_beatsFrom500 (t0 dt : ℚ) :
    meanRR (beatsFrom t0 dt 500) = dt := by
  rw [meanRR, nnRR_beatsFrom, List.sum_replicate, List.length_replicate]
  push_cast [nsmul_eq_mul]
  exact mul_div_cancel_left₀ dt (by norm_num)

lemma hrv_const500 (f : String) (t0 dt : ℚ) (h : roundHalfEven dt ≠ 0) :
    calculate_HRV_metrics f (beatsFrom t0 dt 500) =
      some { filename := f, n := 500,
             mean_nn := some (roundHalfEven dt),
             mean_bpm := some (roundTo1 (1000 / (roundHalfEven dt : ℚ) * 60)),
             sdnn := some (PFloat.num 0), rmssd := some (PFloat.num 0),
             pnn20 := some 0, pnn50 := some 0 } := by
  have hmnn : mean_nnVal (beatsFrom t0 dt 500) = roundHalfEven dt := by
    rw [mean_nnVal, meanRR_beatsFrom500]
  have hsdn : sdnnVal (beatsFrom t0 dt 500) = PFloat.num 0 := by
    rw [sdnnVal]
    rw [if_neg (by rw [nnRR_beatsFrom, List.length_replicate]; norm_num)]
    rw [nnRR_beatsFrom, meanRR_beatsFrom500, List.map_replicate, List.sum_replicate]
    norm_num [sqrtRound1_zero]
  have hrm : rmssdVal (beatsFrom t0 dt 500) = PFloat.num 0 := by
    rw [rmssdVal]
    rw [if_neg (by rw [sDiffs_beatsFrom, List.length_replicate]; norm_num)]
    rw [sDiffs_beatsFrom, List.map_replicate, List.sum_replicate]
    norm_num [sqrtRound1_zero]
  have hp : ∀ thr : ℚ, 0 ≤ thr → pnnVal thr (beatsFrom t0 dt 500) = 0 := by
    intro thr hthr
    rw [pnnVal, sDiffs_beatsFrom, nnCount_beatsFrom]
    have hc : (List.replicate (500 - 1) (0:ℚ)).countP (fun d => thr < |d|) = 0 := by
      rw [List.countP_eq_zero]
      intro a ha
      rw [List.eq_of_mem_replicate ha]
      simpa using hthr
    rw [hc]
    norm_num [roundTo1_zero]
  unfold calculate_HRV_metrics hrvCore
  rw [if_neg (by rw [nnRR_beatsFrom, List.length_replicate]; norm_num)]
  rw [hmnn, if_neg h]
  rw [if_pos (by rw [nnCount_beatsFrom] : 500 ≤ nnCount (beatsFrom t0 dt 500))]
  rw [hsdn, hrm, hp 20 (by norm_num), hp 50 (by norm_num), nnCount_beatsFrom]
  rfl

lemma roundHalfEven_eight_hundred : roundHalfEven (800 : ℚ) = 800 := by
  simpa using roundHalfEven_intCast 800

lemma roundTo1_seventy_five : roundTo1 (75 : ℚ) = 75 := by
  unfold roundTo1
  rw [show ((10:ℚ) * 75) = ((750:ℤ) : ℚ) by norm_num, roundHalfEven_intCast]
  norm_num

lemma roundTo1_sixty_thousand : roundTo1 (60000 : ℚ) = 60000 := by
  unfold roundTo1
  rw [show ((10:ℚ) * 60000) = ((600000:ℤ) : ℚ) by norm_num, roundHalfEven_intCast]
  norm_num

lemma hrv_ms_eval (f : String) :
    calculate_HRV_metrics f (beatsFrom 0 800 500) =
      some { filename := f, n := 500, mean_nn := some 800, mean_bpm := some 75,
             sdnn := some (PFloat.num 0), rmssd := some (PFloat.num 0),
             pnn20 := some 0, pnn50 := some 0 } := by
  rw [hrv_const500 f 0 800 (by rw [roundHalfEven_eight_hundred]; norm_num)]
  rw [roundHalfEven_eight_hundred]
  rw [show (1000 / ((800:ℤ) : ℚ) * 60) = 75 by norm_num, roundTo1_seventy_five]

lemma hrv_sec_eval (f : String) :
    calculate_HRV_metrics f (beatsFrom 0 (4/5) 500) =
      some { filename := f, n := 500, mean_nn := some 1, mean_bpm := some 60000,
             sdnn := some (PFloat.num 0), rmssd := some (PFloat.num 0),
             pnn20 := some 0, pnn50 := some 0 } := by
  rw [hrv_const500 f 0 (4/5) (by rw [roundHalfEven_four_fifths]; norm_num)]
  rw [roundHalfEven_four_fifths]
  rw [show (1000 / ((1:ℤ) : ℚ) * 60) = 60000 by norm_num, roundTo1_sixty_thousand]

lemma calc_eq_ok {f : String} {beats : List Beat} {r : MetricsRecord}
    (h : calculate_HRV_metrics f beats = some r) : hrvCore f beats = .ok r := by
  unfold calculate_HRV_metrics at h
  cases hk : hrvCore f beats with
  | error e => rw [hk] at h; simp [Except.toOption] at h
  | ok a =>
    rw [hk] at h
    simp [Except.toOption] at h
    rw [h]

lemma hrvCore_ok_cases {f : String} {beats : List Beat} {r : MetricsRecord}
    (h : hrvCore f beats = .ok r) :
    (nnRR beats).length ≠ 0 ∧ mean_nnVal beats ≠ 0 ∧
      ((500 ≤ nnCount beats ∧
        r = { filename := f, n := nnCount beats,
              mean_nn := some (mean_nnVal beats),
              mean_bpm := some (roundTo1 (1000 / (mean_nnVal beats : ℚ) * 60)),
              sdnn := some (sdnnVal beats), rmssd := some (rmssdVal beats),
              pnn20 := some (pnnVal 20 beats), pnn50 := some (pnnVal 50 beats) }) ∨
       (nnCount beats < 500 ∧
        r = { filename := f, n := nnCount beats, mean_nn := none, mean_bpm := none,
              sdnn := none, rmssd := none, pnn20 := none, pnn50 := none })) := by
  unfold hrvCore at h
  split_ifs at h with h1 h2 h3
  · injection h with h4
    exact ⟨h1, h2, Or.inl ⟨h3, h4.symm⟩⟩
  · injection h with h4
    exact ⟨h1, h2, Or.inr ⟨by omega, h4.symm⟩⟩

lemma pnnVal_anti (beats : List Beat) : pnnVal 50 beats ≤ pnnVal 20 beats := by
  unfold pnnVal
  apply roundTo1_mono
  have hcnt : (sDiffs beats).countP (fun d => 50 < |d|) ≤
      (sDiffs beats).countP (fun d => 20 < |d|) := by
    apply List.countP_mono_left
    intro d _ hd
    simp only [decide_eq_true_eq] at hd ⊢
    linarith
  refine div_le_div_of_nonneg_right ?_ (Nat.cast_nonneg _)
  have hq : ((sDiffs beats).countP (fun d => 50 < |d|) : ℚ) ≤
      ((sDiffs beats).countP (fun d => 20 < |d|) : ℚ) := by exact_mod_cast hcnt
  nlinarith

/-- Two normal beats 1000 time units apart: a single NN interval. -/
def twoBeats : List Beat :=
  [{ time := 0, type := some 'N' }, { time := 1000, type := some 'N' }]

/-- Two normal beats 2/5 of a time unit apart: one NN interval whose mean
rounds to zero. -/
def shortBeats : List Beat :=
  [{ time := 0, type := some 'N' }, { time := 2/5, type := some 'N' }]

/-- Five beats, normal except for a missing type annotation on the middle
one, as produced by an empty cell in the `type` CSV column. -/
def malformedBeats : List Beat :=
  [{ time := 0, type := some 'N' }, { time := 1000, type := some 'N' },
   { time := 2000, type := none }, { time := 3000, type := some 'N' },
   { time := 4000, type := some 'N' }]

set_option maxRecDepth 8000 in
lemma specNN_twoBeats : specNNIntervals twoBeats = [1000] := by
  with_unfolding_all decide

set_option maxRecDepth 8000 in
lemma specNN_shortBeats : specNNIntervals shortBeats = [2/5] := by
  with_unfolding_all decide

set_option maxRecDepth 8000 in
lemma specNN_malformed : specNNIntervals malformedBeats = [1000, 1000] := by
  with_unfolding_all decide

lemma malformed_eval (f : String) :
    calculate_HRV_metrics f malformedBeats =
      some { filename := f, n := 2, mean_nn := none, mean_bpm := none,
             sdnn := none, rmssd := none, pnn20 := none, pnn50 := none } := by
  have hnn : nnRR malformedBeats = [1000, 1000] :=
    (pipeline_spec _).1.trans specNN_malformed
  have hcnt : nnCount malformedBeats = 2 := by
    rw [(pipeline_spec _).2.1, specNN_malformed]
    rfl
  have hmean : meanRR malformedBeats = 1000 := by
    rw [meanRR, hnn]
    norm_num
  unfold calculate_HRV_metrics hrvCore
  rw [if_neg (by rw [hnn]; norm_num)]
  rw [if_neg (by
    simp only [mean_nnVal, hmean]
    rw [show ((1000:ℚ)) = ((1000:ℤ) : ℚ) by norm_num, roundHalfEven_intCast]
    norm_num)]
  rw [if_neg (by rw [hcnt]; norm_num)]
  rw [hcnt]
  rfl

/-- All five beats normal, same timestamps as `malformedBeats`: the baseline
for the pair-loss comparison. -/
def allNFive : List Beat :=
  [{ time := 0, type := some 'N' }, { time := 1000, type := some 'N' },
   { time := 2000, type := some 'N' }, { time := 3000, type := some 'N' },
   { time := 4000, type := some 'N' }]

/-- C1 counterexample: the empty beat sequence has an NN-pair count below
500, yet `calculate_HRV_metrics` returns no record at all (the internal
`int(NaN)` conversion raises and the broad handler yields `None`), instead
of the all-null record the claim asserts. -/
theorem C1_empty_no_record :
    (specNNIntervals ([] : List Beat)).length < 500 ∧
    calculate_HRV_metrics "subj0.csv" ([] : List Beat) = none :=
  ⟨by decide, rfl⟩

/-- C1 (amended): for a beat sequence whose NN-pair count n satisfies
1 <= n < 500 and whose rounded mean interval is nonzero,
`calculate_HRV_metrics` returns a record with all six numeric metric fields
null, the given identifier, and n the exact NN-pair count. -/
theorem C1_low_count_all_null (f : String) (beats : List Beat)
    (h1 : 1 ≤ (specNNIntervals beats).length)
    (h2 : (specNNIntervals beats).length < 500)
    (h3 : roundHalfEven ((specNNIntervals beats).sum
      / ((specNNIntervals beats).length : ℚ)) ≠ 0) :
    calculate_HRV_metrics f beats =
      some { filename := f, n := (specNNIntervals beats).length,
             mean_nn := none, mean_bpm := none, sdnn := none, rmssd := none,
             pnn20 := none, pnn50 := none } := by
  have hlen : (nnRR beats).length = (specNNIntervals beats).length := by
    rw [(pipeline_spec beats).1]
  unfold calculate_HRV_metrics hrvCore
  rw [if_neg (by rw [hlen]; omega)]
  rw [if_neg (by
    simp only [mean_nnVal, meanRR, (pipeline_spec beats).1]
    exact h3)]
  rw [if_neg (by rw [(pipeline_spec beats).2.1]; omega)]
  rw [(pipeline_spec beats).2.1]
  rfl

/-- C1 witness: two normal beats 1000 units apart satisfy the hypotheses of
the amended claim and produce the all-null record with n = 1. -/
theorem C1_low_count_all_null_witness :
    1 ≤ (specNNIntervals twoBeats).length ∧
    calculate_HRV_metrics "subj1.csv" twoBeats =
      some { filename := "subj1.csv", n := (specNNIntervals twoBeats).length,
             mean_nn := none, mean_bpm := none, sdnn := none, rmssd := none,
             pnn20 := none, pnn50 := none } :=
  ⟨by rw [specNN_twoBeats]; norm_num,
   C1_low_count_all_null "subj1.csv" twoBeats
     (by rw [specNN_twoBeats]; norm_num)
     (by rw [specNN_twoBeats]; norm_num)
     (by
       rw [specNN_twoBeats]
       simp
       rw [show ((1000:ℚ)) = ((1000:ℤ) : ℚ) by norm_num, roundHalfEven_intCast]
       norm_num)⟩

/-- C2 counterexample: with timestamps 0, 0.8, 1.6, ... in the raw input
time unit (the spec reads them as seconds), the code returns
mean_nn = 1 and mean_bpm = 60000.0, not the claimed 800 and 75.0: the
engine does no unit conversion, so a 0.8-unit spacing is rounded to a mean
interval of 1. -/
theorem C2_seconds_spacing_refutes :
    calculate_HRV_metrics "f1.csv" (beatsFrom 0 (4/5) 500) =
      some { filename := "f1.csv", n := 500, mean_nn := some 1,
             mean_bpm := some 60000, sdnn := some (PFloat.num 0),
             rmssd := some (PFloat.num 0), pnn20 := some 0, pnn50 := some 0 } ∧
    (1 : ℤ) ≠ 800 ∧ (60000 : ℚ) ≠ 75 :=
  ⟨hrv_sec_eval _, by norm_num, by norm_num⟩

/-- C2 (amended): the concrete scenario holds with the timestamps expressed
in milliseconds, 0, 800, 1600, ...: 501 all-normal beats at constant
800-unit spacing give n = 500, mean_interval = 800, mean_rate = 75.0,
sdnn = 0.0, rmssd = 0.0, pnn20 = 0.0, pnn50 = 0.0. -/
theorem C2_ms_spacing_scenario :
    calculate_HRV_metrics "f2.csv" (beatsFrom 0 800 500) =
      some { filename := "f2.csv", n := 500, mean_nn := some 800,
             mean_bpm := some 75, sdnn := some (PFloat.num 0),
             rmssd := some (PFloat.num 0), pnn20 := some 0, pnn50 := some 0 } :=
  hrv_ms_eval _

/-- C3: for the empty beat sequence the engine does NOT return an n = 0
record: the mean of the empty NN series is NaN, `int(np.round(NaN))` raises
`ValueError`, the broad handler swallows it, and the function returns
`None`; the NN-pair count of the empty sequence is indeed 0. -/
theorem C3_empty_input_swallowed_error :
    hrvCore "subj3.csv" ([] : List Beat) = .error .valueError ∧
    calculate_HRV_metrics "subj3.csv" ([] : List Beat) = none ∧
    (specNNIntervals ([] : List Beat)).length = 0 :=
  ⟨rfl, rfl, rfl⟩

/-- C4: whenever a returned record carries non-null pnn50 and pnn20, they
equal 100 times the count of sequential-NN successive differences exceeding
50 (resp. 20), divided by the full NN count n (not by the sequential-pair
count), rounded to one decimal. -/
theorem C4_pnn_formula (f : String) (beats : List Beat) (r : MetricsRecord)
    (p q : ℚ) (h : calculate_HRV_metrics f beats = some r)
    (hp : r.pnn50 = some p) (hq : r.pnn20 = some q) :
    p = roundTo1 (100 * (((specSuccDiffs beats).countP (fun d => 50 < |d|)) : ℚ)
          / ((specNNIntervals beats).length : ℚ)) ∧
    q = roundTo1 (100 * (((specSuccDiffs beats).countP (fun d => 20 < |d|)) : ℚ)
          / ((specNNIntervals beats).length : ℚ)) := by
  obtain ⟨h1, h2, hc⟩ := hrvCore_ok_cases (calc_eq_ok h)
  rcases hc with ⟨hn, rfl⟩ | ⟨hn, rfl⟩
  · simp only [Option.some.injEq] at hp hq
    rw [← hp, ← hq]
    constructor <;>
      rw [pnnVal, nnCount, (pipeline_spec beats).2.2,
        ← (pipeline_spec beats).2.1, nnCount]
  · simp at hp

/-- C4 witness: the all-normal constant-spacing run gives pnn values 0,
matching the formula evaluated on its 499 zero differences over n = 500. -/
theorem C4_pnn_formula_witness :
    (0:ℚ) = roundTo1 (100 * (((specSuccDiffs (beatsFrom 0 800 500)).countP
          (fun d => 50 < |d|)) : ℚ)
          / ((specNNIntervals (beatsFrom 0 800 500)).length : ℚ)) ∧
    (0:ℚ) = roundTo1 (100 * (((specSuccDiffs (beatsFrom 0 800 500)).countP
          (fun d => 20 < |d|)) : ℚ)
          / ((specNNIntervals (beatsFrom 0 800 500)).length : ℚ)) :=
  C4_pnn_formula "f4.csv" (beatsFrom 0 800 500) _ 0 0 (hrv_ms_eval _) rfl rfl

/-- C5: the reported rate is computed from the already-rounded mean
interval: whenever mean_nn and mean_bpm are returned, mean_nn is the
half-even-rounded raw mean of the NN intervals, it is nonzero, and
mean_bpm = roundTo1 (60000 / mean_nn). -/
theorem C5_two_stage_rounding (f : String) (beats : List Beat)
    (r : MetricsRecord) (mn : ℤ) (b : ℚ)
    (h : calculate_HRV_metrics f beats = some r)
    (hm : r.mean_nn = some mn) (hb : r.mean_bpm = some b) :
    mn = roundHalfEven ((specNNIntervals beats).sum
          / ((specNNIntervals beats).length : ℚ)) ∧
    mn ≠ 0 ∧ b = roundTo1 (60000 / (mn : ℚ)) := by
  obtain ⟨h1, h2, hc⟩ := hrvCore_ok_cases (calc_eq_ok h)
  rcases hc with ⟨hn, rfl⟩ | ⟨hn, rfl⟩
  · simp only [Option.some.injEq] at hm hb
    subst hm
    refine ⟨?_, h2, ?_⟩
    · simp only [mean_nnVal, meanRR, (pipeline_spec beats).1]
    · rw [← hb]
      congr 1
      rw [div_mul_eq_mul_div]
      norm_num
  · simp at hm

/-- C5 witness: for the 800-unit constant run the returned pair is
mean_nn = 800 and mean_bpm = 75 = roundTo1 (60000 / 800). -/
theorem C5_two_stage_rounding_witness :
    (800 : ℤ) = roundHalfEven ((specNNIntervals (beatsFrom 0 800 500)).sum
          / ((specNNIntervals (beatsFrom 0 800 500)).length : ℚ)) ∧
    (800 : ℤ) ≠ 0 ∧ (75 : ℚ) = roundTo1 (60000 / ((800:ℤ) : ℚ)) :=
  C5_two_stage_rounding "f5.csv" (beatsFrom 0 800 500) _ 800 75
    (hrv_ms_eval _) rfl rfl

/-- C6: whenever both pnn fields are returned non-null, pnn50 <= pnn20:
differences exceeding 50 also exceed 20, the counts share the denominator
n, and rounding to one decimal is monotone. -/
theorem C6_pnn50_le_pnn20 (f : String) (beats : List Beat) (r : MetricsRecord)
    (p q : ℚ) (h : calculate_HRV_metrics f beats = some r)
    (hp : r.pnn50 = some p) (hq : r.pnn20 = some q) : p ≤ q := by
  obtain ⟨h1, h2, hc⟩ := hrvCore_ok_cases (calc_eq_ok h)
  rcases hc with ⟨hn, rfl⟩ | ⟨hn, rfl⟩
  · simp only [Option.some.injEq] at hp hq
    rw [← hp, ← hq]
    exact pnnVal_anti beats
  · simp at hp

/-- C6 witness: the 800-unit constant run returns pnn50 = 0 <= 0 = pnn20. -/
theorem C6_pnn50_le_pnn20_witness : (0 : ℚ) ≤ (0 : ℚ) :=
  C6_pnn50_le_pnn20 "f6.csv" (beatsFrom 0 800 500) _ 0 0
    (hrv_ms_eval _) rfl rfl

/-- C7 counterexample: a malformed beat record (missing type annotation)
reaching the engine is not surfaced as any error: the engine completes
normally and hands an ordinary record back to its caller. -/
theorem C7_malformed_not_signalled :
    hrvCore "m.csv" malformedBeats =
      .ok { filename := "m.csv", n := 2, mean_nn := none, mean_bpm := none,
            sdnn := none, rmssd := none, pnn20 := none, pnn50 := none } ∧
    calculate_HRV_metrics "m.csv" malformedBeats =
      some { filename := "m.csv", n := 2, mean_nn := none, mean_bpm := none,
             sdnn := none, rmssd := none, pnn20 := none, pnn50 := none } := by
  have h := malformed_eval "m.csv"
  exact ⟨calc_eq_ok h, h⟩

/-- C7 (amended): there is no DataError: a missing type annotation is
silently treated like a non-normal beat, the two pairs containing it are
dropped (n = 2 where the all-normal variant of the same timestamps gives
n = 4), and the engine returns a normal record to the caller. -/
theorem C7_missing_type_silently_dropped :
    calculate_HRV_metrics "m2.csv" malformedBeats =
      some { filename := "m2.csv", n := 2, mean_nn := none, mean_bpm := none,
             sdnn := none, rmssd := none, pnn20 := none, pnn50 := none } ∧
    (specNNIntervals malformedBeats).length = 2 ∧
    (specNNIntervals allNFive).length = 4 := by
  refine ⟨malformed_eval _, by rw [specNN_malformed]; rfl, ?_⟩
  decide

/-- C8 counterexample: when the per-subject computation fails (here an
empty beat sequence makes the engine return `None`), the batch records a
row that carries NO subject id at all, not an all-null record with the id
preserved. -/
theorem C8_failure_row_has_no_id :
    process_HRV_files ["bad.csv"] (fun _ => []) = [none] ∧
    ¬ ∃ r : MetricsRecord,
        process_HRV_files ["bad.csv"] (fun _ => []) = [some r] := by
  have h0 : process_HRV_files ["bad.csv"] (fun _ => []) = [none] := by decide
  refine ⟨h0, ?_⟩
  rintro ⟨r, hr⟩
  rw [h0] at hr
  simp at hr

/-- C8 (amended): the batch never aborts and is order and length
preserving: its output is exactly the per-subject results, `None` for a
failed subject, in input order over the subjects retained by the `.csv`
filter; a failed subject contributes an entirely empty row without its id. -/
theorem C8_batch_shape (files : List String) (source : String → List Beat) :
    process_HRV_files files source =
      (files.filter (fun f => endsWithStr f ".csv")).map
        (fun f => calculate_HRV_metrics f (source f)) := by
  induction files with
  | nil => rfl
  | cons f fs ih =>
    by_cases h : endsWithStr f ".csv" = true <;>
      simp [process_HRV_files, List.filter_cons, h, ih]

/-- C9: the division producing the mean rate is unguarded: for any beat
sequence with at least one NN pair whose raw mean interval rounds to zero,
`1000/mean_nn` raises ZeroDivisionError, the broad handler catches it, and
`calculate_HRV_metrics` returns no record at all. -/
theorem C9_zero_mean_division (f : String) (beats : List Beat)
    (h1 : 1 ≤ (specNNIntervals beats).length)
    (h2 : roundHalfEven ((specNNIntervals beats).sum
      / ((specNNIntervals beats).length : ℚ)) = 0) :
    hrvCore f beats = .error .zeroDivisionError ∧
    calculate_HRV_metrics f beats = none := by
  have hlen : (nnRR beats).length = (specNNIntervals beats).length := by
    rw [(pipeline_spec beats).1]
  have hmz : mean_nnVal beats = 0 := by
    simp only [mean_nnVal, meanRR, (pipeline_spec beats).1]
    exact h2
  have hc : hrvCore f beats = .error .zeroDivisionError := by
    unfold hrvCore
    rw [if_neg (by rw [hlen]; omega), if_pos hmz]
  refine ⟨hc, ?_⟩
  unfold calculate_HRV_metrics
  rw [hc]
  rfl

/-- C9 witness: two normal beats 2/5 of a unit apart have one NN pair with
mean 2/5, which rounds to 0; the engine raises and returns nothing. -/
theorem C9_zero_mean_division_witness :
    hrvCore "s9.csv" shortBeats = .error .zeroDivisionError ∧
    calculate_HRV_metrics "s9.csv" shortBeats = none :=
  C9_zero_mean_division "s9.csv" shortBeats
    (by rw [specNN_shortBeats]; norm_num)
    (by
      rw [specNN_shortBeats]
      simp
      exact roundHalfEven_two_fifths)

/-- C10: every record the engine returns, on either branch of the n >= 500
gate, carries the input identifier in `filename` and the exact count of
consecutive both-normal beat pairs in `n`. -/
theorem C10_record_invariant (f : String) (beats : List Beat)
    (r : MetricsRecord) (h : calculate_HRV_metrics f beats = some r) :
    r.filename = f ∧ r.n = (specNNIntervals beats).length := by
  obtain ⟨h1, h2, hc⟩ := hrvCore_ok_cases (calc_eq_ok h)
  rcases hc with ⟨hn, rfl⟩ | ⟨hn, rfl⟩ <;>
    exact ⟨rfl, (pipeline_spec beats).2.1⟩

/-- C10 witness: the record returned for the malformed five-beat input
carries the identifier and n = 2, the exact both-normal pair count. -/
theorem C10_record_invariant_witness :
    ({ filename := "s10.csv", n := 2, mean_nn := none, mean_bpm := none,
       sdnn := none, rmssd := none, pnn20 := none,
       pnn50 := none } : MetricsRecord).filename = "s10.csv" ∧
    ({ filename := "s10.csv", n := 2, mean_nn := none, mean_bpm := none,
       sdnn := none, rmssd := none, pnn20 := none,
       pnn50 := none } : MetricsRecord).n =
      (specNNIntervals malformedBeats).length :=
  C10_record_invariant "s10.csv" malformedBeats _ (malformed_eval _)
